import Mathlib

/-!
# Verification of the attendance reconciliation core of `attendance_app.py`

This file shallowly embeds the attendance-ledger logic of the Streamlit
application `src/attendance_app.py` and proves properties of it.

The embedded pieces are:
* the member directory rows (`members.csv`) and attendance ledger rows
  (`all_attendance.csv`) as Lean structures;
* `load_data_safely` (lines 73-85), which normalizes the `Date` column of a
  loaded CSV to the `YYYY-MM-DD` string produced by
  `pd.to_datetime(...).dt.strftime("%Y-%m-%d")`;
* the submit branch of `attendance_page` (lines 463-507): reject an empty
  selection, build Present rows for the selected members of the chosen group,
  drop every stored row matching the (date, group) key, concatenate, and save
  once via `save_data_safely`;
* the roster-upload validation of `manage_members` (lines 1280-1312).
-/

namespace ChurchAttendance

/-- A row of the member directory `members.csv`:
Membership Number, Full Name, Group. -/
structure Member where
  membershipNumber : String
  fullName : String
  group : String
deriving DecidableEq

/-- A row of the attendance ledger `all_attendance.csv`:
Date, Membership Number, Full Name, Group, Status. -/
structure Record where
  date : String
  membershipNumber : String
  fullName : String
  group : String
  status : String
deriving DecidableEq

/-- `group_df = members_df[members_df["Group"] == group]` (line 371):
the roster of the selected group. -/
def groupRoster (members : List Member) (g : String) : List Member :=
  members.filter (fun m => m.group == g)

/-- The boolean mask `(master_df["Date"] == sunday_str) & (master_df["Group"] == group)`
used at lines 380-382 and 483-486 to locate rows of the session key. -/
def keyMatch (d g : String) (r : Record) : Bool :=
  r.date == d && r.group == g

/-- Lines 474-478: `group_df[group_df["Full Name"].isin(present)]` with
`Status = "Present"` and `Date = sunday_str`, projected to the ledger columns.
Only Present rows are built; unselected roster members yield no row. -/
def newRows (d g : String) (present : List String) (members : List Member) :
    List Record :=
  ((groupRoster members g).filter (fun m => present.contains m.fullName)).map
    (fun m => { date := d, membershipNumber := m.membershipNumber,
                fullName := m.fullName, group := m.group, status := "Present" })

/-- The submit branch of `attendance_page` (lines 469-491), as a function from
the loaded master ledger to the frame handed to `save_data_safely`:
`none` when no member is selected (lines 469-471 show an error and return,
leaving the file untouched); otherwise the retained rows (those not matching
the (date, group) key, lines 483-486) followed by the new Present rows
(line 487), or just the new rows when the master was empty (line 489). -/
def recordSession (master : List Record) (d g : String) (present : List String)
    (members : List Member) : Option (List Record) :=
  if present.isEmpty then none
  else
    let output := newRows d g present members
    if master.isEmpty then some output
    else some (master.filter (fun r => !keyMatch d g r) ++ output)

/-- One whole submit including persistence (lines 469-507): returns the file
contents after the submit together with the list of bulk-write payloads handed
to `save_data_safely` (line 491).  The write either succeeds (`writeOk = true`)
and the file becomes the reconciled frame, or fails and the file keeps its
pre-call contents; in either case at most one write is attempted. -/
def submitAttendance (stored : List Record) (d g : String) (present : List String)
    (members : List Member) (writeOk : Bool) : List Record × List (List Record) :=
  match recordSession stored d g present members with
  | none => (stored, [])
  | some updated => if writeOk then (updated, [updated]) else (stored, [updated])

/-- The ledger state reached by one submit when the write succeeds:
the updated frame on success, the unchanged state on a rejected submission. -/
def stepSession (stored : List Record) (d g : String) (present : List String)
    (members : List Member) : List Record :=
  (recordSession stored d g present members).getD stored

/-- The defining invariant: at most one ledger row per
(date, group, membershipNumber) tuple. -/
def KeyUnique (l : List Record) : Prop :=
  l.Pairwise (fun a b =>
    ¬(a.date = b.date ∧ a.group = b.group ∧
      a.membershipNumber = b.membershipNumber))

instance (l : List Record) : Decidable (KeyUnique l) := by
  unfold KeyUnique
  infer_instance

/-! ## Date normalization (`load_data_safely`, lines 73-85)

Stored `Date` cells are arbitrary parseable date texts.  `pd.to_datetime`
parses each into a calendar date and `strftime("%Y-%m-%d")` prints that date
as the canonical ISO string; the submitted date travels the same path at
line 360 (`pd.to_datetime(sunday).strftime("%Y-%m-%d")`).  We model a
parseable cell as the calendar date it denotes tagged with its surface
format. -/

/-- A calendar date: year, month, day. -/
structure CalDate where
  y : Nat
  m : Nat
  d : Nat
deriving DecidableEq

/-- Surface formats of stored date texts that `pd.to_datetime` parses. -/
inductive DateFmt where
  | isoDashes
  | daySlashes
  | monthName
deriving DecidableEq

/-- A raw stored date cell: a parseable text denoting a calendar date in some
surface format. -/
structure RawDate where
  fmt : DateFmt
  val : CalDate
deriving DecidableEq

/-- Two-digit zero padding as produced by `strftime`. -/
def pad2 (n : Nat) : String :=
  if n < 10 then "0" ++ toString n else toString n

/-- `strftime("%Y-%m-%d")` of a parsed calendar date. -/
def isoDateStr (c : CalDate) : String :=
  toString c.y ++ "-" ++ pad2 c.m ++ "-" ++ pad2 c.d

/-- `pd.to_datetime` then `strftime`: parsing recovers the denoted calendar
date whatever the surface format, then prints it canonically (line 80). -/
def normalizeDate (rd : RawDate) : String :=
  isoDateStr rd.val

/-- A stored ledger row before `load_data_safely` rewrites its Date cell. -/
structure RawRecord where
  date : RawDate
  membershipNumber : String
  fullName : String
  group : String
  status : String
deriving DecidableEq

/-- `load_data_safely` on one row: the Date cell is replaced by its
normalized `YYYY-MM-DD` string. -/
def loadRecord (rr : RawRecord) : Record :=
  { date := normalizeDate rr.date, membershipNumber := rr.membershipNumber,
    fullName := rr.fullName, group := rr.group, status := rr.status }

/-- `load_data_safely` on the whole master file (lines 77-81). -/
def loadLedger (raws : List RawRecord) : List Record :=
  raws.map loadRecord

/-! ## Roster upload (`manage_members`, lines 1280-1312) -/

/-- An uploaded CSV, as header names and data rows. -/
structure UploadTable where
  cols : List String
  rows : List (List String)
deriving DecidableEq

/-- `required_cols` at line 1289. -/
def requiredCols : List String :=
  ["Membership Number", "Full Name", "Group"]

/-- `missing_cols` at line 1290. -/
def missingCols (t : UploadTable) : List String :=
  requiredCols.filter (fun c => !(t.cols.contains c))

/-- Lines 1292-1312: when a required column is missing an error is shown and
nothing is saved; otherwise `save_data_safely(new_df, MEMBER_FILE)` replaces
the stored file wholesale (and a failing save also leaves it untouched).
Returns the stored table after the interaction and whether an error was
shown. -/
def importMembers (stored : UploadTable) (upload : UploadTable) (saveOk : Bool) :
    UploadTable × Bool :=
  if !(missingCols upload).isEmpty then (stored, true)
  else if saveOk then (upload, false)
  else (stored, true)

/-! ## Basic lemmas about the embedded operations -/

theorem mem_groupRoster {members : List Member} {g : String} {m : Member}
    (h : m ∈ groupRoster members g) : m.group = g := by
  have h2 := (List.mem_filter.mp h).2
  simpa using h2

theorem newRows_date_group {d g : String} {present : List String}
    {members : List Member} {r : Record}
    (h : r ∈ newRows d g present members) : r.date = d ∧ r.group = g := by
  unfold newRows at h
  rcases List.mem_map.mp h with ⟨m, hm, rfl⟩
  exact ⟨rfl, mem_groupRoster (List.mem_of_mem_filter hm)⟩

theorem keyMatch_newRows {d g : String} {present : List String}
    {members : List Member} {r : Record}
    (h : r ∈ newRows d g present members) : keyMatch d g r = true := by
  obtain ⟨hd, hg⟩ := newRows_date_group h
  simp [keyMatch, hd, hg]

theorem filter_not_key_newRows (d g : String) (present : List String)
    (members : List Member) :
    (newRows d g present members).filter (fun r => !keyMatch d g r) = [] := by
  apply List.filter_eq_nil_iff.mpr
  intro r hr
  simp [keyMatch_newRows hr]

theorem filter_key_newRows (d g : String) (present : List String)
    (members : List Member) :
    (newRows d g present members).filter (keyMatch d g) =
      newRows d g present members := by
  apply List.filter_eq_self.mpr
  intro r hr
  exact keyMatch_newRows hr

/-- On a nonempty selection, the submit always saves the retained rows
followed by the new Present rows; the empty-master branch at line 489
coincides with this because filtering an empty frame yields an empty frame. -/
theorem recordSession_eq_some (master : List Record) (d g : String)
    {present : List String} (members : List Member)
    (hp : present.isEmpty = false) :
    recordSession master d g present members =
      some (master.filter (fun r => !keyMatch d g r) ++
        newRows d g present members) := by
  cases master with
  | nil => simp [recordSession, hp]
  | cons a t => simp [recordSession, hp]

/-! ## Concrete fixtures (the roster and ledger of the specification example) -/

/-- Roster of group Youth with members M1, M2, M3 (full names chosen equal to
the membership numbers so selections by name coincide with the member ids). -/
def roster3 : List Member :=
  [{ membershipNumber := "M1", fullName := "M1", group := "Youth" },
   { membershipNumber := "M2", fullName := "M2", group := "Youth" },
   { membershipNumber := "M3", fullName := "M3", group := "Youth" }]

/-- A stored ledger holding M1, M2, M3 Present for Youth on 2024-06-02. -/
def master3 : List Record :=
  [{ date := "2024-06-02", membershipNumber := "M1", fullName := "M1",
     group := "Youth", status := "Present" },
   { date := "2024-06-02", membershipNumber := "M2", fullName := "M2",
     group := "Youth", status := "Present" },
   { date := "2024-06-02", membershipNumber := "M3", fullName := "M3",
     group := "Youth", status := "Present" }]

/-- A stored ledger holding one row outside the 2024-06-02 Youth key and one
row inside it. -/
def masterMix : List Record :=
  [{ date := "2024-05-26", membershipNumber := "M1", fullName := "M1",
     group := "Youth", status := "Present" },
   { date := "2024-06-02", membershipNumber := "M2", fullName := "M2",
     group := "Youth", status := "Present" }]

/-! ## Claim theorems -/

/-- C1: every successful submit preserves the invariant that the ledger holds
at most one record per (date, group, membershipNumber) tuple, provided the
group roster has pairwise distinct membership numbers and the prior ledger
already satisfied the invariant. -/
theorem keyUnique_preserved (master : List Record) (d g : String)
    (present : List String) (members : List Member) (u : List Record)
    (hroster : ((groupRoster members g).map Member.membershipNumber).Nodup)
    (hmaster : KeyUnique master)
    (h : recordSession master d g present members = some u) :
    KeyUnique u := by
  cases hp : present.isEmpty with
  | true => simp [recordSession, hp] at h
  | false =>
    rw [recordSession_eq_some master d g members hp] at h
    injection h with h
    subst h
    unfold KeyUnique
    apply List.pairwise_append.mpr
    refine ⟨List.Pairwise.sublist (List.filter_sublist _) hmaster, ?_, ?_⟩
    · have h1 : (((groupRoster members g).filter
          (fun m => present.contains m.fullName)).map
            Member.membershipNumber).Nodup :=
        List.Nodup.sublist (List.Sublist.map _ (List.filter_sublist _)) hroster
      have h2 := List.pairwise_map.mp h1
      unfold newRows
      apply List.pairwise_map.mpr
      refine h2.imp ?_
      intro a b hab hcon
      exact hab hcon.2.2
    · intro a ha b hb
      have hak := (List.mem_filter.mp ha).2
      obtain ⟨hbd, hbg⟩ := newRows_date_group hb
      intro hcon
      obtain ⟨hd, hg, _⟩ := hcon
      rw [hbd] at hd
      rw [hbg] at hg
      simp [keyMatch, hd, hg] at hak

theorem keyUnique_preserved_witness :
    ((groupRoster roster3 "Youth").map Member.membershipNumber).Nodup ∧
    KeyUnique masterMix ∧
    KeyUnique (masterMix.filter (fun r => !keyMatch "2024-06-02" "Youth" r) ++
      newRows "2024-06-02" "Youth" ["M1"] roster3) :=
  ⟨by decide, by decide,
   keyUnique_preserved masterMix "2024-06-02" "Youth" ["M1"] roster3 _
     (by decide) (by decide) (by decide)⟩

/-- C2: after two successive submits S1 then S2 with the same (date, group)
key, the ledger rows for that key are exactly the rows derived from the
arguments of S2, with no residue of S1. -/
theorem resubmission_replaces (L0 u1 u2 : List Record) (d g : String)
    (p1 p2 : List String) (m1 m2 : List Member)
    (_h1 : recordSession L0 d g p1 m1 = some u1)
    (h2 : recordSession u1 d g p2 m2 = some u2) :
    u2.filter (keyMatch d g) = newRows d g p2 m2 := by
  cases hp : p2.isEmpty with
  | true => simp [recordSession, hp] at h2
  | false =>
    rw [recordSession_eq_some u1 d g m2 hp] at h2
    injection h2 with h2
    subst h2
    rw [List.filter_append, filter_key_newRows, List.filter_filter]
    simp

theorem resubmission_replaces_witness :
    recordSession [] "2024-06-02" "Youth" ["M1", "M2"] roster3 =
      some [{ date := "2024-06-02", membershipNumber := "M1", fullName := "M1",
              group := "Youth", status := "Present" },
            { date := "2024-06-02", membershipNumber := "M2", fullName := "M2",
              group := "Youth", status := "Present" }] ∧
    recordSession
        [{ date := "2024-06-02", membershipNumber := "M1", fullName := "M1",
           group := "Youth", status := "Present" },
         { date := "2024-06-02", membershipNumber := "M2", fullName := "M2",
           group := "Youth", status := "Present" }]
        "2024-06-02" "Youth" ["M1"] roster3 =
      some [{ date := "2024-06-02", membershipNumber := "M1", fullName := "M1",
              group := "Youth", status := "Present" }] ∧
    ([{ date := "2024-06-02", membershipNumber := "M1", fullName := "M1",
        group := "Youth", status := "Present" }] : List Record).filter
        (keyMatch "2024-06-02" "Youth") =
      newRows "2024-06-02" "Youth" ["M1"] roster3 :=
  ⟨by decide, by decide,
   resubmission_replaces []
     [{ date := "2024-06-02", membershipNumber := "M1", fullName := "M1",
        group := "Youth", status := "Present" },
      { date := "2024-06-02", membershipNumber := "M2", fullName := "M2",
        group := "Youth", status := "Present" }]
     [{ date := "2024-06-02", membershipNumber := "M1", fullName := "M1",
        group := "Youth", status := "Present" }]
     "2024-06-02" "Youth" ["M1", "M2"] ["M1"]
     roster3 roster3 (by decide) (by decide)⟩

/-- C3: a successful submit leaves every record outside the target
(date, group) key untouched: filtering the ledger to the complement of the
key gives the same rows before and after the call. -/
theorem frame_outside_key (master u : List Record) (d g : String)
    (present : List String) (members : List Member)
    (h : recordSession master d g present members = some u) :
    u.filter (fun r => !keyMatch d g r) =
      master.filter (fun r => !keyMatch d g r) := by
  cases hp : present.isEmpty with
  | true => simp [recordSession, hp] at h
  | false =>
    rw [recordSession_eq_some master d g members hp] at h
    injection h with h
    subst h
    rw [List.filter_append, filter_not_key_newRows, List.append_nil,
      List.filter_filter]
    simp

theorem frame_outside_key_witness :
    recordSession masterMix "2024-06-02" "Youth" ["M1"] roster3 =
      some [{ date := "2024-05-26", membershipNumber := "M1", fullName := "M1",
              group := "Youth", status := "Present" },
            { date := "2024-06-02", membershipNumber := "M1", fullName := "M1",
              group := "Youth", status := "Present" }] ∧
    ([{ date := "2024-05-26", membershipNumber := "M1", fullName := "M1",
        group := "Youth", status := "Present" },
      { date := "2024-06-02", membershipNumber := "M1", fullName := "M1",
        group := "Youth", status := "Present" }] : List Record).filter
        (fun r => !keyMatch "2024-06-02" "Youth" r) =
      masterMix.filter (fun r => !keyMatch "2024-06-02" "Youth" r) :=
  ⟨by decide,
   frame_outside_key masterMix _ "2024-06-02" "Youth" ["M1"] roster3
     (by decide)⟩

/-- C4 counterexample: with roster M1, M2, M3 and present M1, M2 the submit
stores only 2 rows, both Present; there is no Absent row for M3, so querying
the key does not yield one row per roster member. -/
theorem presentOnly_counterexample :
    recordSession [] "2024-06-02" "Youth" ["M1", "M2"] roster3 =
      some [{ date := "2024-06-02", membershipNumber := "M1", fullName := "M1",
              group := "Youth", status := "Present" },
            { date := "2024-06-02", membershipNumber := "M2", fullName := "M2",
              group := "Youth", status := "Present" }] ∧
    ((recordSession [] "2024-06-02" "Youth" ["M1", "M2"] roster3).getD
        []).length ≠ 3 := by
  constructor
  · decide
  · decide

/-- C4 (amended): after a successful submit, querying by the (date, group) key
yields exactly the freshly built rows: one Present row per roster member whose
name was selected; unselected roster members get no row at all (no Absent rows
are stored). -/
theorem session_rows_present_only (master u : List Record) (d g : String)
    (present : List String) (members : List Member)
    (h : recordSession master d g present members = some u) :
    u.filter (keyMatch d g) = newRows d g present members ∧
    (newRows d g present members).all (fun r => r.status == "Present") = true := by
  constructor
  · cases hp : present.isEmpty with
    | true => simp [recordSession, hp] at h
    | false =>
      rw [recordSession_eq_some master d g members hp] at h
      injection h with h
      subst h
      rw [List.filter_append, filter_key_newRows, List.filter_filter]
      simp
  · apply List.all_eq_true.mpr
    intro r hr
    unfold newRows at hr
    rcases List.mem_map.mp hr with ⟨m, _, rfl⟩
    rfl

theorem session_rows_present_only_witness :
    recordSession master3 "2024-06-02" "Youth" ["M1", "M2"] roster3 =
      some [{ date := "2024-06-02", membershipNumber := "M1", fullName := "M1",
              group := "Youth", status := "Present" },
            { date := "2024-06-02", membershipNumber := "M2", fullName := "M2",
              group := "Youth", status := "Present" }] ∧
    (([{ date := "2024-06-02", membershipNumber := "M1", fullName := "M1",
         group := "Youth", status := "Present" },
       { date := "2024-06-02", membershipNumber := "M2", fullName := "M2",
         group := "Youth", status := "Present" }] : List Record).filter
        (keyMatch "2024-06-02" "Youth") =
      newRows "2024-06-02" "Youth" ["M1", "M2"] roster3 ∧
     (newRows "2024-06-02" "Youth" ["M1", "M2"] roster3).all
        (fun r => r.status == "Present") = true) :=
  ⟨by decide,
   session_rows_present_only master3 _ "2024-06-02" "Youth" ["M1", "M2"]
     roster3 (by decide)⟩

/-- C5 counterexample: submitting present = [M9] against roster M1, M2, M3
does not fail: the call succeeds, M9 is silently dropped, and the three prior
rows for the key are deleted, so the ledger is changed with no error. -/
theorem unknownMember_counterexample :
    recordSession master3 "2024-06-02" "Youth" ["M9"] roster3 = some [] ∧
    master3 ≠ [] := by
  constructor
  · decide
  · decide

/-- C5 (amended): a selected name that is not on the group roster raises no
error: whenever the selection is nonempty the submit succeeds, the unknown
names contribute no rows, and the rows stored for the key are exactly those
of the selected roster members, so prior rows for the key are still
superseded (possibly by nothing). -/
theorem unknownMember_ignored (master : List Record) (d g : String)
    (present : List String) (members : List Member) (x : String)
    (hx : x ∈ present)
    (_hnot : x ∉ (groupRoster members g).map Member.fullName) :
    ∃ u, recordSession master d g present members = some u ∧
      u.filter (keyMatch d g) = newRows d g present members := by
  have hp : present.isEmpty = false := by
    cases present with
    | nil => cases hx
    | cons a t => rfl
  refine ⟨_, recordSession_eq_some master d g members hp, ?_⟩
  rw [List.filter_append, filter_key_newRows, List.filter_filter]
  simp

theorem unknownMember_ignored_witness :
    "M9" ∈ (["M9"] : List String) ∧
    "M9" ∉ (groupRoster roster3 "Youth").map Member.fullName ∧
    (∃ u, recordSession master3 "2024-06-02" "Youth" ["M9"] roster3 = some u ∧
      u.filter (keyMatch "2024-06-02" "Youth") =
        newRows "2024-06-02" "Youth" ["M9"] roster3) :=
  ⟨by decide, by decide,
   unknownMember_ignored master3 "2024-06-02" "Youth" ["M9"] roster3 "M9"
     (by decide) (by decide)⟩

/-- C6: submitting twice with identical arguments yields the same final
ledger as submitting once (the second submit deletes exactly the rows the
first one wrote and rewrites them). -/
theorem recordSession_idempotent (stored : List Record) (d g : String)
    (present : List String) (members : List Member) :
    stepSession (stepSession stored d g present members) d g present members =
      stepSession stored d g present members := by
  cases hp : present.isEmpty with
  | true => simp [stepSession, recordSession, hp]
  | false =>
    unfold stepSession
    rw [recordSession_eq_some stored d g members hp]
    rw [Option.getD_some]
    rw [recordSession_eq_some _ d g members hp]
    rw [Option.getD_some]
    rw [List.filter_append, filter_not_key_newRows, List.append_nil,
      List.filter_filter]
    simp

/-- C7: one submit hands `save_data_safely` at most one bulk payload; when a
payload is written it is the fully reconciled ledger (retained rows followed
by the new rows), the same payload whether the write succeeds or fails; and a
failing write leaves the stored file in its pre-call state. -/
theorem single_bulk_write (stored : List Record) (d g : String)
    (present : List String) (members : List Member) :
    (submitAttendance stored d g present members false).1 = stored ∧
    (submitAttendance stored d g present members true).2.length ≤ 1 ∧
    (submitAttendance stored d g present members false).2.length ≤ 1 ∧
    (submitAttendance stored d g present members true).2 =
      (submitAttendance stored d g present members false).2 ∧
    ((submitAttendance stored d g present members true).2 = [] ∨
      (submitAttendance stored d g present members true).2 =
        [stored.filter (fun r => !keyMatch d g r) ++
          newRows d g present members]) := by
  cases hp : present.isEmpty with
  | true => simp [submitAttendance, recordSession, hp]
  | false => simp [submitAttendance, recordSession_eq_some stored d g members hp]

/-- C8: the submit compares dates only after both sides are normalized — the
stored ledger passes through `load_data_safely` (every Date cell becomes the
ISO string of the calendar date it denotes, whatever its surface format) and
the submitted date is rendered by the same `strftime`.  Hence a submit against
the loaded ledger saves the retained-plus-new frame, and every stored row that
denotes the submitted calendar date in the submitted group — in any stored
format — is matched by the key mask and so superseded (absent from the
retained rows). -/
theorem normalized_dates_superseded (raws : List RawRecord) (c : CalDate)
    (g : String) (present : List String) (members : List Member)
    (rr : RawRecord) (_hmem : rr ∈ raws) (hdate : rr.date.val = c)
    (hgrp : rr.group = g) (hp : present.isEmpty = false) :
    recordSession (loadLedger raws) (isoDateStr c) g present members =
      some ((loadLedger raws).filter
              (fun r => !keyMatch (isoDateStr c) g r) ++
            newRows (isoDateStr c) g present members) ∧
    loadRecord rr ∉
      (loadLedger raws).filter (fun r => !keyMatch (isoDateStr c) g r) := by
  refine ⟨recordSession_eq_some _ _ _ _ hp, ?_⟩
  intro hin
  have hk := (List.mem_filter.mp hin).2
  have hkey : keyMatch (isoDateStr c) g (loadRecord rr) = true := by
    simp [keyMatch, loadRecord, normalizeDate, hdate, hgrp]
  rw [hkey] at hk
  simp at hk

/-- A raw stored row whose Date cell is in day/month/year slash format but
denotes 2024-06-02. -/
def rr0 : RawRecord :=
  { date := { fmt := DateFmt.daySlashes, val := { y := 2024, m := 6, d := 2 } },
    membershipNumber := "M1", fullName := "M1", group := "Youth",
    status := "Present" }

theorem normalized_dates_superseded_witness :
    rr0 ∈ [rr0] ∧ rr0.date.val = CalDate.mk 2024 6 2 ∧
    rr0.group = "Youth" ∧ (["M1"] : List String).isEmpty = false ∧
    (recordSession (loadLedger [rr0]) (isoDateStr (CalDate.mk 2024 6 2))
        "Youth" ["M1"] roster3 =
      some ((loadLedger [rr0]).filter
              (fun r => !keyMatch (isoDateStr (CalDate.mk 2024 6 2)) "Youth" r) ++
            newRows (isoDateStr (CalDate.mk 2024 6 2)) "Youth" ["M1"] roster3) ∧
     loadRecord rr0 ∉
       (loadLedger [rr0]).filter
         (fun r => !keyMatch (isoDateStr (CalDate.mk 2024 6 2)) "Youth" r)) :=
  ⟨List.Mem.head _, rfl, rfl, rfl,
   normalized_dates_superseded [rr0] (CalDate.mk 2024 6 2) "Youth" ["M1"]
     roster3 rr0 (List.Mem.head _) rfl rfl rfl⟩

/-- C9: an uploaded roster file missing a required column is rejected
wholesale: an error is shown and the stored member file is unchanged, with no
partial import. -/
theorem missing_columns_rejected (stored upload : UploadTable) (saveOk : Bool)
    (hmiss : missingCols upload ≠ []) :
    importMembers stored upload saveOk = (stored, true) := by
  have h : (missingCols upload).isEmpty = false := by
    cases hmc : missingCols upload with
    | nil => exact absurd hmc hmiss
    | cons a t => rfl
  simp [importMembers, h]

/-- An upload lacking the required Group column. -/
def badUpload : UploadTable :=
  { cols := ["Membership Number", "Full Name"], rows := [["M1", "M1"]] }

/-- A stored member file with the full required header. -/
def storedMembers : UploadTable :=
  { cols := ["Membership Number", "Full Name", "Group"],
    rows := [["M1", "M1", "Youth"]] }

theorem missing_columns_rejected_witness :
    missingCols badUpload ≠ [] ∧
    importMembers storedMembers badUpload true = (storedMembers, true) :=
  ⟨by decide,
   missing_columns_rejected storedMembers badUpload true (by decide)⟩

/-- C10: a submit with an empty present selection is rejected with an error
(lines 469-471) and the ledger file is left exactly as it was; in particular
a session recording every roster member as Absent can never be stored, since
nothing at all is stored. -/
theorem empty_selection_rejected (stored : List Record) (d g : String)
    (members : List Member) (writeOk : Bool) :
    recordSession stored d g [] members = none ∧
    submitAttendance stored d g [] members writeOk = (stored, []) := by
  constructor
  · simp [recordSession]
  · simp [submitAttendance, recordSession]

end ChurchAttendance
